import Mathlib

/-!
Shallow embedding of the durable task-queue core of the
markdown-transformer service, translated from `src/app/api/database.py`,
`src/app/api/routes.py`, `src/app/services/queue_worker.py` and
`src/app/converters/pdf_bridge_converter.py`, together with theorems
checking the natural-language specification's statements against it.

The SQLite `tasks` table is modelled as a list of rows in rowid
(insertion) order.  SQLite column values are dynamically typed, so the
mutable columns are modelled by a `DBValue` sum; `REAL` timestamps are
modelled by integers (only their ordering and equality matter to the
properties below).  Each database method is a pure function from the
store (plus the wall-clock instant at which the transaction runs) to the
updated store and its return value; this is the sequential semantics of
the code, in which every operation is a single committed transaction.
-/

namespace DocQueue

/-- A dynamically typed SQLite cell value.  `real` timestamps are modelled
as integers. -/
inductive DBValue where
  | null : DBValue
  | int : Int → DBValue
  | text : String → DBValue
deriving DecidableEq, Repr

/-- One row of the `tasks` table (schema created in
`TaskDatabase.init_db`, database.py lines 64-80).  `id` and
`original_filename` are `TEXT NOT NULL` and only ever hold strings;
`created_at` and `updated_at` are `REAL NOT NULL` timestamps.  The
remaining, nullable columns keep the dynamic `DBValue` type. -/
structure TaskRow where
  id : String
  original_filename : String
  status : DBValue
  created_at : Int
  updated_at : Int
  downloaded : DBValue
  result_path : DBValue
  message : DBValue
  progress : DBValue
  s3_url : DBValue
  file_hash : DBValue
  worker_id : DBValue
  processing_started : DBValue
deriving DecidableEq, Repr

/-- The `tasks` table, in rowid (insertion) order. -/
abbrev Store := List TaskRow

def isQueued (t : TaskRow) : Bool := t.status = DBValue.text "queued"

def isProcessing (t : TaskRow) : Bool := t.status = DBValue.text "processing"

def isPendingStatus (t : TaskRow) : Bool := t.status = DBValue.text "pending"

def isCompleted (t : TaskRow) : Bool := t.status = DBValue.text "completed"

/-- The column whitelist of `TaskDatabase.update_task`
(database.py lines 204-205). -/
def ALLOWED_FIELDS : List String :=
  ["status", "message", "progress", "result_path", "s3_url",
   "downloaded", "worker_id", "processing_started", "file_hash"]

/-- `SET name = v` on a single row.  Only whitelisted column names ever
reach this function (see `applyTaskUpdates`), so the catch-all branch is
dead code. -/
def setColumn (t : TaskRow) : String → DBValue → TaskRow
  | "status", v => { t with status := v }
  | "message", v => { t with message := v }
  | "progress", v => { t with progress := v }
  | "result_path", v => { t with result_path := v }
  | "s3_url", v => { t with s3_url := v }
  | "downloaded", v => { t with downloaded := v }
  | "worker_id", v => { t with worker_id := v }
  | "processing_started", v => { t with processing_started := v }
  | _, _ => t

/-- The whitelist filter of `update_task` (database.py line 208). -/
def filterAllowed (updates : List (String × DBValue)) : List (String × DBValue) :=
  updates.filter (fun u => decide (u.1 ∈ ALLOWED_FIELDS))

/-- Effect of `update_task`'s generated `UPDATE tasks SET ...` on one row:
apply every whitelisted field, then set `updated_at` to the transaction
time (database.py lines 208-218; the code adds `updated_at` to the
filtered dictionary, whose other keys never include `updated_at` because
it is not whitelisted). -/
def applyTaskUpdates (t : TaskRow) (updates : List (String × DBValue)) (now : Int) : TaskRow :=
  { (filterAllowed updates).foldl (fun acc u => setColumn acc u.1 u.2) t with updated_at := now }

/-- `TaskDatabase.update_task` (database.py lines 201-221): a whitelisted
partial update of the row whose `id` matches; rows with other ids are
untouched, and a missing id updates nothing. -/
def update_task (store : Store) (task_id : String) (updates : List (String × DBValue))
    (now : Int) : Store :=
  store.map (fun t => if t.id = task_id then applyTaskUpdates t updates now else t)

/-- The row inserted by `TaskDatabase.create_task` (database.py lines
179-199): columns absent from the INSERT take their schema defaults
(`downloaded` 0, the rest NULL). -/
def newTaskRow (task_id : String) (original_filename : String) (status : DBValue)
    (message : DBValue) (progress : DBValue) (file_hash : DBValue) (now : Int) : TaskRow :=
  { id := task_id
    original_filename := original_filename
    status := status
    created_at := now
    updated_at := now
    downloaded := DBValue.int 0
    result_path := DBValue.null
    message := message
    progress := progress
    s3_url := DBValue.null
    file_hash := file_hash
    worker_id := DBValue.null
    processing_started := DBValue.null }

/-- `TaskDatabase.create_task`: INSERT a fresh row. -/
def create_task (store : Store) (task_id : String) (original_filename : String)
    (status : DBValue) (message : DBValue) (progress : DBValue) (file_hash : DBValue)
    (now : Int) : Store :=
  store ++ [newTaskRow task_id original_filename status message progress file_hash now]

/-- `TaskDatabase.get_task_by_hash` (database.py lines 234-249):
`SELECT * FROM tasks WHERE file_hash = ? AND status = 'completed' ORDER BY
created_at DESC LIMIT 1`.  Modelled as the first row of maximal
`created_at` among the matches. -/
def get_task_by_hash (store : Store) (h : String) : Option TaskRow :=
  (store.filter (fun t => decide (t.file_hash = DBValue.text h) && isCompleted t)).argmin
    (fun t => -t.created_at)

/-- The row mutation performed by the claim UPDATE of
`TaskDatabase.get_next_queued_task` (database.py lines 365-378). -/
def claimRow (t : TaskRow) (worker : String) (now : Int) : TaskRow :=
  { t with status := DBValue.text "processing"
           worker_id := DBValue.text worker
           processing_started := DBValue.int now
           updated_at := now }

/-- The claim candidate: `SELECT id FROM tasks WHERE status = 'queued'
ORDER BY created_at ASC LIMIT 1` — the first queued row of minimal
`created_at`. -/
def findNextQueued (store : Store) : Option TaskRow :=
  (store.filter isQueued).argmin (fun t => t.created_at)

/-- `TaskDatabase.get_next_queued_task` (database.py lines 348-440).  In
the sequential (single transaction at a time) semantics the RETURNING
branch and the BEGIN IMMEDIATE fallback coincide: select the oldest
queued row; if none, return `none`; otherwise set it to `processing` with
the caller's `worker_id` and `processing_started = now` and return the
updated record.  The UPDATE's `WHERE id = ?` touches every row carrying
the selected id (ids are unique in any real table: `id` is the PRIMARY
KEY). -/
def get_next_queued_task (store : Store) (worker : String) (now : Int) :
    Option TaskRow × Store :=
  match findNextQueued store with
  | none => (none, store)
  | some sel =>
      (some (claimRow sel worker now),
       store.map (fun t => if t.id = sel.id then claimRow t worker now else t))

/-- The WHERE clause of `TaskDatabase.release_stale_tasks`
(database.py lines 457-466): `status = 'processing' AND
processing_started < cutoff`.  A NULL `processing_started` compares as
NULL in SQL and therefore never matches. -/
def staleMatch (t : TaskRow) (cutoff : Int) : Bool :=
  isProcessing t &&
    match t.processing_started with
    | DBValue.int s => decide (s < cutoff)
    | _ => false

/-- The row mutation of `release_stale_tasks`: back to the queue with the
worker fields cleared and a diagnostic message. -/
def releaseRow (t : TaskRow) (now : Int) : TaskRow :=
  { t with status := DBValue.text "queued"
           worker_id := DBValue.null
           processing_started := DBValue.null
           message := DBValue.text "Returned to queue after timeout"
           updated_at := now }

/-- `TaskDatabase.release_stale_tasks` (database.py lines 442-478):
release every matching row and return how many rows the UPDATE changed
(`SELECT changes()`). -/
def release_stale_tasks (store : Store) (timeout_seconds : Int) (now : Int) :
    Nat × Store :=
  let cutoff := now - timeout_seconds
  ((store.filter (fun t => staleMatch t cutoff)).length,
   store.map (fun t => if staleMatch t cutoff then releaseRow t now else t))

/-- The WHERE clause of `cleanup_stale_processing_tasks`
(database.py line 332): `status IN ('processing', 'pending')`. -/
def startupStale (t : TaskRow) : Bool := isProcessing t || isPendingStatus t

/-- The row mutation of `cleanup_stale_processing_tasks`. -/
def startupFailRow (t : TaskRow) (now : Int) : TaskRow :=
  { t with status := DBValue.text "failed"
           message := DBValue.text "Server was restarted while processing"
           updated_at := now }

/-- `TaskDatabase.cleanup_stale_processing_tasks` (database.py lines
314-346): at server start, mark every `processing` or `pending` row as
`failed` with a restart message and return the number of changed rows. -/
def cleanup_stale_processing_tasks (store : Store) (now : Int) : Nat × Store :=
  ((store.filter startupStale).length,
   store.map (fun t => if startupStale t then startupFailRow t now else t))

/-- Python truthiness of a nullable TEXT cell, as used by
`if file_hash:` and `cached_task.get('result_path')` in
queue_worker.py: NULL and the empty string are falsy.  (A numeric value
in these TEXT columns never occurs in any code path.) -/
def truthyText : DBValue → Option String
  | DBValue.text s => if s = "" then none else some s
  | _ => none

/-- External effects of one `QueueWorker._process_task` run that are
outside the store: the filesystem and the subprocess-based converters
(queue_worker.py lines 247-409). -/
structure WorkerEnv where
  /-- `os.path.exists(cached_task['result_path'])` (line 263). -/
  cachedArtifactExists : Bool
  /-- `os.path.exists(input_file)` (line 287). -/
  inputFileExists : Bool
  /-- Hash computed by `async_calculate_file_hash` when missing (line 292). -/
  computedHash : String
  /-- Whether the extension is in `ConverterFactory.CONVERTERS` (line 300). -/
  formatSupported : Bool
  /-- Whether `converter.convert` succeeds (lines 306-312). -/
  convertOk : Bool
  /-- Whether `async_create_result_zip` succeeds (line 333). -/
  zipOk : Bool
  /-- The ZIP path returned on success. -/
  zipPath : String
  /-- URL recorded by the optional S3 stage, or NULL (lines 341-358). -/
  s3Url : DBValue
  /-- Text of the exception message on the failing branch, if any. -/
  errDetail : String
deriving DecidableEq, Repr

/-- The worker's cache re-check (queue_worker.py lines 259-262): a task
with a truthy `file_hash` looks up `get_task_by_hash`; a hit counts only
if the cached row's `result_path` is truthy (the artifact-exists check is
a separate filesystem test, `WorkerEnv.cachedArtifactExists`). -/
def workerCacheLookup (store : Store) (t : TaskRow) : Option TaskRow :=
  match truthyText t.file_hash with
  | none => none
  | some h =>
      match get_task_by_hash store h with
      | none => none
      | some cached =>
          if (truthyText cached.result_path).isSome then some cached else none

/-- The `update_task` dictionary of the worker's cache-hit branch
(queue_worker.py lines 266-275). -/
def cacheHitUpdates (cached : TaskRow) : List (String × DBValue) :=
  [("status", DBValue.text "completed"),
   ("result_path", cached.result_path),
   ("s3_url", cached.s3_url),
   ("progress", DBValue.int 100),
   ("message", DBValue.text "Использован кешированный результат")]

/-- The `update_task` dictionary of the worker's success persist
(queue_worker.py lines 361-370). -/
def successUpdates (env : WorkerEnv) : List (String × DBValue) :=
  [("status", DBValue.text "completed"),
   ("result_path", DBValue.text env.zipPath),
   ("s3_url", env.s3Url),
   ("progress", DBValue.int 100),
   ("message", DBValue.text "Конвертация завершена успешно")]

/-- The `update_task` dictionary of both failure handlers
(queue_worker.py lines 381-388 and 402-409). -/
def failUpdates (msg : String) : List (String × DBValue) :=
  [("status", DBValue.text "failed"),
   ("message", DBValue.text msg),
   ("progress", DBValue.int 0)]

/-- The `update_task` calls issued by `_process_task` after a cache miss,
in program order (queue_worker.py lines 278-409): the input-file check,
the hash backfill for rows lacking one, converter dispatch (an
unsupported extension raises before any progress update), the progress-30
milestone, conversion, the progress-70 milestone, then packaging/upload
and either the success persist or a failure persist. -/
def processTaskRest (task : TaskRow) (env : WorkerEnv) :
    List (List (String × DBValue)) :=
  if !env.inputFileExists then
    [failUpdates ("Ошибка обработки: " ++ env.errDetail)]
  else
    (if (truthyText task.file_hash).isNone
     then [[("file_hash", DBValue.text env.computedHash)]] else []) ++
    (if !env.formatSupported then
      [failUpdates ("Ошибка обработки: " ++ env.errDetail)]
    else
      [("progress", DBValue.int 30), ("message", DBValue.text "Начата конвертация")] ::
      (if !env.convertOk then
        [failUpdates ("Ошибка обработки: " ++ env.errDetail)]
      else
        [("progress", DBValue.int 70), ("message", DBValue.text "Создание результата")] ::
        (if !env.zipOk then
          [failUpdates ("Ошибка создания результата: " ++ env.errDetail)]
        else
          [successUpdates env])))

/-- All `update_task` calls issued by one `QueueWorker._process_task` run
on `task`, in program order: the cache re-check first, then (on a miss or
a missing artifact) the conversion pipeline. -/
def processTaskUpdates (store : Store) (task : TaskRow) (env : WorkerEnv) :
    List (List (String × DBValue)) :=
  match workerCacheLookup store task with
  | some cached =>
      if env.cachedArtifactExists then [cacheHitUpdates cached]
      else processTaskRest task env
  | none => processTaskRest task env

/-- Store effect of one `QueueWorker._process_task` run: the issued
updates applied in order, each a committed `update_task` transaction. -/
def processTask (store : Store) (task : TaskRow) (env : WorkerEnv) (now : Int) :
    Store :=
  (processTaskUpdates store task env).foldl
    (fun s upd => update_task s task.id upd now) store

/-- The `progress` values among a run's updates, in persist order. -/
def progressInts (updates : List (List (String × DBValue))) : List Int :=
  (updates.map (fun upd => upd.filterMap
     (fun p => match p with
       | ("progress", DBValue.int i) => some i
       | _ => none))).flatten

/-- The lifetime sequence of persisted progress values of a task that is
created with progress `p0` and then processed once by a worker. -/
def lifetimeProgress (p0 : Int) (store : Store) (task : TaskRow) (env : WorkerEnv) :
    List Int :=
  p0 :: progressInts (processTaskUpdates store task env)

def nonDecreasing : List Int → Bool
  | [] => true
  | [_] => true
  | a :: b :: rest => decide (a ≤ b) && nonDecreasing (b :: rest)

/-- The `update_task` dictionary of `QueueWorker.stop` releasing the
claim it still holds (queue_worker.py lines 237-245). -/
def workerStopUpdates : List (String × DBValue) :=
  [("status", DBValue.text "queued"),
   ("worker_id", DBValue.null),
   ("processing_started", DBValue.null)]

/-- `QueueWorker.stop`'s release of the current claim. -/
def worker_stop_release (store : Store) (task_id : String) (now : Int) : Store :=
  update_task store task_id workerStopUpdates now

/-- `TaskDatabase.update_task_status` (database.py lines 263-267), used by
the legacy route `process_conversion`: set `status`, and `message` only
when truthy. -/
def update_task_status (store : Store) (task_id : String) (status : String)
    (message : Option String) (now : Int) : Store :=
  update_task store task_id
    (("status", DBValue.text status) ::
      (match message with
       | some m => if m = "" then [] else [("message", DBValue.text m)]
       | none => [])) now

/-- Store effect of the enqueue route `convert_document` (routes.py lines
256-295): it always generates a fresh uuid, inserts one `pending` row
with progress 0 and no `file_hash` (`create_task` is called without a
`file_hash` key), and returns that fresh id.  No hash is computed and
`get_task_by_hash` is never consulted on this path. -/
def convert_document_enqueue (store : Store) (fresh_id : String)
    (original_filename : String) (now : Int) : String × Store :=
  (fresh_id,
   create_task store fresh_id original_filename (DBValue.text "pending")
     (DBValue.text "Task queued for processing") (DBValue.int 0) DBValue.null now)

/-- Synchronisation and stage events of one bridge-engine conversion. -/
inductive ConvEvent where
  | semaphoreAcquire : ConvEvent
  | semaphoreRelease : ConvEvent
  | lockAcquire : ConvEvent
  | lockRelease : ConvEvent
  | officeStage : ConvEvent
  | markdownStage : ConvEvent
deriving DecidableEq, Repr

/-- Event order of one bridge-engine conversion as the code performs it:
`QueueWorker._process_task` wraps the whole `converter.convert` call in
`async with self.libreoffice_semaphore` (queue_worker.py lines 306-310);
inside, `PdfBridgeConverter.convert` (pdf_bridge_converter.py lines
132-167) first runs `convert_to_pdf_with_libreoffice`, which holds the
module-global `_libreoffice_lock` (an `asyncio.Lock`, capacity 1) around
the LibreOffice subprocess (lines 54-130), and then runs the Marker
markdown stage — still under the semaphore, which is released only when
`convert` returns. -/
def bridgeConversionTrace : List ConvEvent :=
  [ConvEvent.semaphoreAcquire, ConvEvent.lockAcquire, ConvEvent.officeStage,
   ConvEvent.lockRelease, ConvEvent.markdownStage, ConvEvent.semaphoreRelease]

/-- Modelled from the spec: the event order the specification describes
for a bridge-engine conversion — semaphore acquired before the office
stage and released immediately after it, before the markdown stage runs.
Stated only for comparison with `bridgeConversionTrace`. -/
def specBridgeTrace : List ConvEvent :=
  [ConvEvent.semaphoreAcquire, ConvEvent.officeStage,
   ConvEvent.semaphoreRelease, ConvEvent.markdownStage]

/-- Position of an event in the code's bridge-conversion order. -/
def eventIndex (e : ConvEvent) : Nat := bridgeConversionTrace.indexOf e

/-- Reader for the mutable (whitelisted) columns by SQL name, used to
state frame properties of `update_task`. -/
def getColumn (t : TaskRow) : String → Option DBValue
  | "status" => some t.status
  | "message" => some t.message
  | "progress" => some t.progress
  | "result_path" => some t.result_path
  | "s3_url" => some t.s3_url
  | "downloaded" => some t.downloaded
  | "worker_id" => some t.worker_id
  | "processing_started" => some t.processing_started
  | "file_hash" => some t.file_hash
  | _ => none

/-- The last `status` value a worker run persists, if any: identifies the
terminal branch the run took. -/
def finalStatusWrite (updates : List (List (String × DBValue))) : Option DBValue :=
  (updates.flatten.filterMap
    (fun p => if p.1 = "status" then some p.2 else none)).getLast?

/-- The invariant of claim C2: a row is `processing` exactly when both
worker columns are set. -/
abbrev processingInvariant (store : Store) : Prop :=
  ∀ t ∈ store, t.status = DBValue.text "processing" ↔
    (t.worker_id ≠ DBValue.null ∧ t.processing_started ≠ DBValue.null)

/-! Concrete fixtures used by the closed witnesses and counterexamples. -/

/-- A freshly enqueued row, as `create_task` inserts it. -/
def rowQueued : TaskRow :=
  newTaskRow "t1" "a.docx" (DBValue.text "queued")
    (DBValue.text "Task queued for processing") (DBValue.int 0) DBValue.null 3

/-- A second queued row, enqueued later. -/
def rowQueuedLater : TaskRow :=
  newTaskRow "t2" "b.pdf" (DBValue.text "queued")
    (DBValue.text "Task queued for processing") (DBValue.int 0) DBValue.null 5

/-- `rowQueued` after worker `w1` claimed it at time 10. -/
def rowClaimed : TaskRow := claimRow rowQueued "w1" 10

/-- A claimed row that already carries a content hash. -/
def rowClaimedHashed : TaskRow := { rowClaimed with file_hash := DBValue.text "h0" }

/-- A PROCESSING row with NULL worker columns, as the legacy route's
`update_task_status(id, PROCESSING)` produces. -/
def rowProcessingNoStart : TaskRow :=
  newTaskRow "p1" "c.docx" (DBValue.text "processing") DBValue.null
    (DBValue.int 0) DBValue.null 1

/-- A row still carrying the legacy `pending` status. -/
def rowPendingLegacy : TaskRow :=
  newTaskRow "t3" "d.doc" (DBValue.text "pending")
    (DBValue.text "Task queued for processing") (DBValue.int 0) DBValue.null 2

/-- A completed row with hash `h0` and a surviving artifact. -/
def rowCompletedCached : TaskRow :=
  { newTaskRow "t0" "a.docx" (DBValue.text "completed")
      (DBValue.text "Конвертация завершена успешно") (DBValue.int 100)
      (DBValue.text "h0") 1 with
      result_path := DBValue.text "/results/t0/a_docx_result.zip"
      s3_url := DBValue.text "https://bucket/t0.zip" }

/-- Environment of a clean conversion run. -/
def envSuccess : WorkerEnv :=
  { cachedArtifactExists := false
    inputFileExists := true
    computedHash := "h0"
    formatSupported := true
    convertOk := true
    zipOk := true
    zipPath := "/results/t1/a_docx_result.zip"
    s3Url := DBValue.null
    errDetail := "" }

/-- Environment of a run whose converter fails. -/
def envConvertFail : WorkerEnv :=
  { envSuccess with convertOk := false, errDetail := "converter exited 1" }

/-- Environment of a run that finds a cached artifact on disk. -/
def envCacheHit : WorkerEnv :=
  { envSuccess with cachedArtifactExists := true }

/-! Helper lemmas shared by the claim theorems. -/

theorem staleMatch_iff (u : TaskRow) (cutoff : Int) :
    staleMatch u cutoff = true ↔
      (u.status = DBValue.text "processing" ∧
        ∃ s, u.processing_started = DBValue.int s ∧ s < cutoff) := by
  unfold staleMatch isProcessing
  cases h : u.processing_started <;> simp [h]

theorem startupStale_iff (u : TaskRow) :
    startupStale u = true ↔
      (u.status = DBValue.text "processing" ∨ u.status = DBValue.text "pending") := by
  unfold startupStale isProcessing isPendingStatus
  simp

theorem cleanup_snd_getElem (store : Store) (now : Int) (i : Nat) :
    (cleanup_stale_processing_tasks store now).2[i]? =
      (store[i]?).map (fun u => if startupStale u then startupFailRow u now else u) := by
  simp [cleanup_stale_processing_tasks, List.getElem?_map]

/-! Theorems for the individual claims. -/

/-- C4 counterexample: in the code's bridge-conversion event order the
office-suite semaphore is released only after the markdown stage, so the
claimed order — released immediately after the office stage, before the
markdown stage runs — is false, and the code's order is not the spec's
order. -/
theorem bridge_semaphore_counterexample :
    ¬ eventIndex ConvEvent.semaphoreRelease < eventIndex ConvEvent.markdownStage ∧
    bridgeConversionTrace ≠ specBridgeTrace := by
  constructor <;> decide

/-- C4 (amended): for a bridge-engine conversion the office-suite
semaphore is acquired before the office stage but released only after the
markdown stage completes, i.e. it is held across the entire conversion;
in addition the office stage itself is bracketed by the module-global
LibreOffice mutex (capacity 1), which is released before the markdown
stage. -/
theorem bridge_semaphore_order :
    eventIndex ConvEvent.semaphoreAcquire < eventIndex ConvEvent.officeStage ∧
    eventIndex ConvEvent.officeStage < eventIndex ConvEvent.markdownStage ∧
    eventIndex ConvEvent.markdownStage < eventIndex ConvEvent.semaphoreRelease ∧
    eventIndex ConvEvent.lockAcquire < eventIndex ConvEvent.officeStage ∧
    eventIndex ConvEvent.officeStage < eventIndex ConvEvent.lockRelease ∧
    eventIndex ConvEvent.lockRelease < eventIndex ConvEvent.markdownStage := by
  decide

/-- C5 counterexample: a PROCESSING row whose `processing_started` is NULL
is not touched by `ReleaseStale(0)` — the SQL predicate
`processing_started < now` never matches NULL — so with such a row in the
store the call returns 0 and changes nothing, refuting "t = 0 releases
all currently PROCESSING tasks". -/
theorem release_stale_zero_counterexample :
    isProcessing rowProcessingNoStart = true ∧
    release_stale_tasks [rowProcessingNoStart] 0 5 = (0, [rowProcessingNoStart]) := by
  constructor <;> decide

/-- C5 (amended): `ReleaseStale(t)` resets exactly those tasks with
status PROCESSING and a non-NULL `processing_started` earlier than
now − t to QUEUED with the worker columns cleared and the diagnostic
message set, leaves every other task unchanged, and returns the number of
tasks so reset; with t = 0 it releases exactly the PROCESSING tasks whose
`processing_started` is set and strictly earlier than now. -/
theorem release_stale_tasks_spec (store : Store) (timeout now : Int) :
    (∀ u, staleMatch u (now - timeout) = true ↔
      (u.status = DBValue.text "processing" ∧
        ∃ s, u.processing_started = DBValue.int s ∧ s < now - timeout)) ∧
    (release_stale_tasks store timeout now).1 =
      (store.filter (fun u => staleMatch u (now - timeout))).length ∧
    (∀ u now2, (releaseRow u now2).status = DBValue.text "queued" ∧
      (releaseRow u now2).worker_id = DBValue.null ∧
      (releaseRow u now2).processing_started = DBValue.null ∧
      (releaseRow u now2).message = DBValue.text "Returned to queue after timeout") ∧
    (∀ i : Nat, (release_stale_tasks store timeout now).2[i]? =
      (store[i]?).map (fun u =>
        if staleMatch u (now - timeout) then releaseRow u now else u)) := by
  refine ⟨fun u => staleMatch_iff u (now - timeout), rfl,
    fun u now2 => ⟨rfl, rfl, rfl, rfl⟩, fun i => ?_⟩
  simp [release_stale_tasks, List.getElem?_map]

/-- C5 witness: instantiating the amended statement on a two-row store at
timeout 300: the row claimed 600 seconds ago is released, the fresh
queued row is untouched. -/
theorem release_stale_tasks_spec_witness :
    staleMatch rowClaimed (700 - 300) = true ∧
    (release_stale_tasks [rowClaimed, rowQueuedLater] 300 700).2[0]? =
      some (releaseRow rowClaimed 700) ∧
    (release_stale_tasks [rowClaimed, rowQueuedLater] 300 700).2[1]? =
      some rowQueuedLater := by
  have h := release_stale_tasks_spec [rowClaimed, rowQueuedLater] 300 700
  refine ⟨?_, ?_, ?_⟩
  · exact (h.1 rowClaimed).mpr ⟨rfl, 10, rfl, by decide⟩
  · have h0 := h.2.2.2 0
    simpa using h0
  · have h1 := h.2.2.2 1
    simpa using h1

theorem startupStale_status_ne (u : TaskRow) (now : Int)
    (h : startupStale u = true) :
    u.status ≠ (startupFailRow u now).status := by
  rcases (startupStale_iff u).mp h with h1 | h1 <;> simp [startupFailRow, h1]

theorem cleanup_count_changed (store : Store) (now : Int) :
    (cleanup_stale_processing_tasks store now).1 =
      ((store.zip (cleanup_stale_processing_tasks store now).2).filter
        (fun p => decide (p.1.status ≠ p.2.status))).length := by
  simp only [cleanup_stale_processing_tasks]
  induction store with
  | nil => rfl
  | cons t ts ih =>
    simp only [List.map_cons, List.zip_cons_cons, List.filter_cons]
    by_cases h : startupStale t = true
    · have hne : t.status ≠ (startupFailRow t now).status := startupStale_status_ne t now h
      simp only [h, if_true]
      rw [if_pos (by simpa using hne)]
      simp [ih]
    · have h' : startupStale t = false := by simpa using h
      simp only [h']
      simp only [Bool.false_eq_true, if_false]
      rw [if_neg (by simp)]
      exact ih

theorem startup_count_split (store : Store) :
    (store.filter startupStale).length =
      (store.filter isProcessing).length + (store.filter isPendingStatus).length := by
  induction store with
  | nil => rfl
  | cons t ts ih =>
    have hex : ¬(isProcessing t = true ∧ isPendingStatus t = true) := by
      unfold isProcessing isPendingStatus
      rintro ⟨h1, h2⟩
      simp only [decide_eq_true_eq] at h1 h2
      rw [h1] at h2
      exact absurd h2 (by decide)
    simp only [List.filter_cons]
    by_cases hp : isProcessing t = true <;> by_cases hq : isPendingStatus t = true
    · exact absurd ⟨hp, hq⟩ hex
    · have hs : startupStale t = true := by simp [startupStale, hp]
      rw [if_pos hs, if_pos hp, if_neg hq]
      simp only [List.length_cons]
      omega
    · have hs : startupStale t = true := by simp [startupStale, hq]
      rw [if_pos hs, if_neg hp, if_pos hq]
      simp only [List.length_cons]
      omega
    · have hs : ¬(startupStale t = true) := by simp [startupStale, hp, hq]
      rw [if_neg hs, if_neg hp, if_neg hq]
      omega

/-- C6: `ResetStartup` transitions every PROCESSING task to FAILED with
the "server restarted" message, leaves QUEUED tasks unchanged, and
returns the number of rows whose status it changed. -/
theorem cleanup_startup_spec (store : Store) (now : Int) :
    ((cleanup_stale_processing_tasks store now).1 =
      ((store.zip (cleanup_stale_processing_tasks store now).2).filter
        (fun p => decide (p.1.status ≠ p.2.status))).length) ∧
    (∀ u now2, isProcessing u = true →
      (startupFailRow u now2).status = DBValue.text "failed" ∧
      (startupFailRow u now2).message =
        DBValue.text "Server was restarted while processing") ∧
    (∀ u, isQueued u = true → startupStale u = false) ∧
    (∀ i : Nat, (cleanup_stale_processing_tasks store now).2[i]? =
      (store[i]?).map (fun u => if startupStale u then startupFailRow u now else u)) := by
  refine ⟨cleanup_count_changed store now, fun u now2 _ => ⟨rfl, rfl⟩, fun u hu => ?_,
    fun i => cleanup_snd_getElem store now i⟩
  unfold isQueued at hu
  simp only [decide_eq_true_eq] at hu
  simp [startupStale, isProcessing, isPendingStatus, hu]

/-- C6 witness: on a store with one claimed and one queued row, the
claimed row is failed with the restart message and the queued row is
untouched. -/
theorem cleanup_startup_spec_witness :
    ((startupFailRow rowClaimed 20).status = DBValue.text "failed" ∧
      (startupFailRow rowClaimed 20).message =
        DBValue.text "Server was restarted while processing") ∧
    startupStale rowQueuedLater = false ∧
    (cleanup_stale_processing_tasks [rowClaimed, rowQueuedLater] 20).2[0]? =
      some (startupFailRow rowClaimed 20) := by
  have h := cleanup_startup_spec [rowClaimed, rowQueuedLater] 20
  refine ⟨h.2.1 rowClaimed 20 (by decide), h.2.2.1 rowQueuedLater (by decide), ?_⟩
  rw [h.2.2.2 0]
  decide

/-- C9: the startup reset also fails every legacy `pending` task with the
same "Server was restarted while processing" message, and the returned
count is the number of `processing` rows plus the number of `pending`
rows. -/
theorem cleanup_startup_pending_spec (store : Store) (now : Int) :
    ((cleanup_stale_processing_tasks store now).1 =
      (store.filter isProcessing).length + (store.filter isPendingStatus).length) ∧
    (∀ u now2, isPendingStatus u = true →
      (startupFailRow u now2).status = DBValue.text "failed" ∧
      (startupFailRow u now2).message =
        DBValue.text "Server was restarted while processing") ∧
    (∀ u, isPendingStatus u = true → startupStale u = true) ∧
    (∀ i : Nat, (cleanup_stale_processing_tasks store now).2[i]? =
      (store[i]?).map (fun u => if startupStale u then startupFailRow u now else u)) := by
  refine ⟨startup_count_split store, fun u now2 _ => ⟨rfl, rfl⟩, fun u hu => ?_,
    fun i => cleanup_snd_getElem store now i⟩
  simp [startupStale, hu]

/-- C9 witness: a store with one pending and one processing row yields
count 2, and the pending row is failed with the restart message. -/
theorem cleanup_startup_pending_spec_witness :
    ((startupFailRow rowPendingLegacy 20).status = DBValue.text "failed" ∧
      (startupFailRow rowPendingLegacy 20).message =
        DBValue.text "Server was restarted while processing") ∧
    (cleanup_stale_processing_tasks [rowPendingLegacy, rowClaimed] 20).1 = 2 ∧
    (cleanup_stale_processing_tasks [rowPendingLegacy, rowClaimed] 20).2[0]? =
      some (startupFailRow rowPendingLegacy 20) := by
  have h := cleanup_startup_pending_spec [rowPendingLegacy, rowClaimed] 20
  refine ⟨h.2.1 rowPendingLegacy 20 (by decide), ?_, ?_⟩
  · rw [h.1]
    decide
  · rw [h.2.2.2 0]
    decide

theorem applyTaskUpdates_stop (t : TaskRow) (now : Int) :
    applyTaskUpdates t workerStopUpdates now =
      { t with status := DBValue.text "queued"
               worker_id := DBValue.null
               processing_started := DBValue.null
               updated_at := now } := rfl

/-- C2 counterexample: the startup reset — one of the committed
operations the claim quantifies over — takes the store of one claimed
task, which satisfies the biconditional, to a store whose single task is
FAILED yet still carries `worker_id = 'w1'` and a non-NULL
`processing_started`, falsifying the "only if" direction. -/
theorem processing_invariant_counterexample :
    processingInvariant [rowClaimed] ∧
    ¬ processingInvariant (cleanup_stale_processing_tasks [rowClaimed] 20).2 := by
  constructor <;> decide

/-- C2 (amended): the claim, stale-release and worker-stop operations
preserve the biconditional "status = PROCESSING iff worker_id and
processing_started are both set"; the startup reset and the worker's
terminal updates leave the worker columns set on non-PROCESSING rows, and
the legacy route marks rows PROCESSING without setting them, so the
biconditional holds after every committed operation only of this
restricted family. -/
theorem processing_invariant_preserved (store : Store) (worker task_id : String)
    (timeout now : Int) (h : processingInvariant store) :
    processingInvariant (get_next_queued_task store worker now).2 ∧
    processingInvariant (release_stale_tasks store timeout now).2 ∧
    processingInvariant (worker_stop_release store task_id now) := by
  refine ⟨?_, ?_, ?_⟩
  · unfold get_next_queued_task
    cases hf : findNextQueued store with
    | none => exact h
    | some sel =>
      intro t' ht'
      rcases List.mem_map.mp ht' with ⟨t, ht, rfl⟩
      by_cases hid : t.id = sel.id
      · simp only [hid, if_true, claimRow]
        simp
      · simp only [hid, if_false]
        exact h t ht
  · intro t' ht'
    rcases List.mem_map.mp ht' with ⟨t, ht, rfl⟩
    by_cases hs : staleMatch t (now - timeout) = true
    · simp only [hs, if_true, releaseRow]
      simp
    · simp only [hs, if_false]
      exact h t ht
  · intro t' ht'
    rcases List.mem_map.mp ht' with ⟨t, ht, rfl⟩
    by_cases hid : t.id = task_id
    · simp only [hid, if_true, applyTaskUpdates_stop]
      simp
    · simp only [hid, if_false]
      exact h t ht

/-- C2 witness: starting from a store satisfying the biconditional, a
claim by worker w2 preserves it. -/
theorem processing_invariant_preserved_witness :
    processingInvariant ([rowClaimed, rowQueuedLater] : Store) ∧
    processingInvariant (get_next_queued_task [rowClaimed, rowQueuedLater] "w2" 30).2 := by
  have h := processing_invariant_preserved [rowClaimed, rowQueuedLater] "w2" "t1" 300 30
    (by decide)
  exact ⟨by decide, h.1⟩

theorem setColumn_frame (t : TaskRow) (n : String) (v : DBValue) :
    (setColumn t n v).id = t.id ∧
    (setColumn t n v).original_filename = t.original_filename ∧
    (setColumn t n v).created_at = t.created_at ∧
    (setColumn t n v).updated_at = t.updated_at := by
  unfold setColumn
  split <;> simp

theorem foldl_setColumn_frame (t : TaskRow) (l : List (String × DBValue)) :
    ((l.foldl (fun acc u => setColumn acc u.1 u.2) t).id = t.id ∧
     (l.foldl (fun acc u => setColumn acc u.1 u.2) t).original_filename =
       t.original_filename ∧
     (l.foldl (fun acc u => setColumn acc u.1 u.2) t).created_at = t.created_at) := by
  induction l generalizing t with
  | nil => exact ⟨rfl, rfl, rfl⟩
  | cons u us ih =>
    simp only [List.foldl_cons]
    have h1 := setColumn_frame t u.1 u.2
    have h2 := ih (setColumn t u.1 u.2)
    exact ⟨h2.1.trans h1.1, h2.2.1.trans h1.2.1, h2.2.2.trans h1.2.2.1⟩

theorem getColumn_setColumn_ne (t : TaskRow) (n name : String) (v : DBValue)
    (h : n ≠ name) : getColumn (setColumn t n v) name = getColumn t name := by
  unfold setColumn
  split <;> (unfold getColumn; split <;> simp_all)

theorem getColumn_updated_at (t : TaskRow) (now : Int) (name : String) :
    getColumn { t with updated_at := now } name = getColumn t name := by
  unfold getColumn
  split <;> rfl

theorem getColumn_foldl_ne (l : List (String × DBValue)) (t : TaskRow) (name : String)
    (h : ∀ u ∈ l, u.1 ≠ name) :
    getColumn (l.foldl (fun acc u => setColumn acc u.1 u.2) t) name = getColumn t name := by
  induction l generalizing t with
  | nil => rfl
  | cons u us ih =>
    simp only [List.foldl_cons]
    rw [ih _ (fun v hv => h v (List.mem_cons_of_mem u hv))]
    exact getColumn_setColumn_ne t u.1 name u.2 (h u (List.mem_cons_self u us))

/-- C8: `Update(id, fields)` touches only columns that are both in the
whitelist and in `fields` (every other mutable column keeps its value and
the immutable columns `id`, `original_filename`, `created_at` are never
touched), always sets `updated_at` to the transaction time, silently
drops any field outside the whitelist, and with an empty
whitelist-intersection leaves the row unchanged except `updated_at`. -/
theorem update_task_whitelist_spec (t : TaskRow) (updates : List (String × DBValue))
    (now : Int) :
    ((applyTaskUpdates t updates now).id = t.id ∧
     (applyTaskUpdates t updates now).original_filename = t.original_filename ∧
     (applyTaskUpdates t updates now).created_at = t.created_at) ∧
    (applyTaskUpdates t updates now).updated_at = now ∧
    (∀ name, (∀ u ∈ updates, u.1 ∈ ALLOWED_FIELDS → u.1 ≠ name) →
      getColumn (applyTaskUpdates t updates now) name = getColumn t name) ∧
    (∀ pre u post, updates = pre ++ u :: post → u.1 ∉ ALLOWED_FIELDS →
      applyTaskUpdates t updates now = applyTaskUpdates t (pre ++ post) now) ∧
    ((∀ u ∈ updates, u.1 ∉ ALLOWED_FIELDS) →
      applyTaskUpdates t updates now = { t with updated_at := now }) := by
  refine ⟨?_, rfl, ?_, ?_, ?_⟩
  · have h := foldl_setColumn_frame t (filterAllowed updates)
    exact ⟨h.1, h.2.1, h.2.2⟩
  · intro name hname
    unfold applyTaskUpdates
    rw [getColumn_updated_at]
    apply getColumn_foldl_ne
    intro u hu
    rcases List.mem_filter.mp hu with ⟨hmem, hall⟩
    exact hname u hmem (of_decide_eq_true hall)
  · intro pre u post hsplit hnot
    subst hsplit
    unfold applyTaskUpdates filterAllowed
    rw [List.filter_append, List.filter_append, List.filter_cons,
      if_neg (by simpa using hnot)]
  · intro hall
    have hnil : filterAllowed updates = [] :=
      List.filter_eq_nil_iff.mpr (fun u hu => by simpa using hall u hu)
    unfold applyTaskUpdates
    rw [hnil]
    rfl

/-- C8 witness: an unknown field `type_result` is dropped while a
whitelisted `progress` field is applied; an update of only unknown fields
changes nothing but `updated_at`; the `status` column is untouched when
no whitelisted field names it. -/
theorem update_task_whitelist_spec_witness :
    getColumn (applyTaskUpdates rowQueued
        [("type_result", DBValue.text "norm"), ("progress", DBValue.int 50)] 9) "status" =
      getColumn rowQueued "status" ∧
    applyTaskUpdates rowQueued
        [("type_result", DBValue.text "norm"), ("progress", DBValue.int 50)] 9 =
      applyTaskUpdates rowQueued [("progress", DBValue.int 50)] 9 ∧
    applyTaskUpdates rowQueued [("type_result", DBValue.text "norm")] 9 =
      { rowQueued with updated_at := 9 } := by
  have h := update_task_whitelist_spec rowQueued
    [("type_result", DBValue.text "norm"), ("progress", DBValue.int 50)] 9
  have h2 := update_task_whitelist_spec rowQueued [("type_result", DBValue.text "norm")] 9
  refine ⟨h.2.2.1 "status" (by decide), ?_, h2.2.2.2.2 (by decide)⟩
  exact h.2.2.2.1 [] ("type_result", DBValue.text "norm") [("progress", DBValue.int 50)]
    rfl (by decide)

theorem progress_trace_rest (p0 : Int) (task : TaskRow) (env : WorkerEnv)
    (hp : p0 ≤ 30) :
    (finalStatusWrite (processTaskRest task env) = some (DBValue.text "completed") →
      nonDecreasing (p0 :: progressInts (processTaskRest task env)) = true) ∧
    (nonDecreasing (p0 :: progressInts (processTaskRest task env)) = false →
      finalStatusWrite (processTaskRest task env) = some (DBValue.text "failed") ∧
      (progressInts (processTaskRest task env)).getLast? = some 0) := by
  unfold processTaskRest
  by_cases hin : env.inputFileExists = true <;>
    by_cases hh : (truthyText task.file_hash).isNone = true <;>
      by_cases hfmt : env.formatSupported = true <;>
        by_cases hcv : env.convertOk = true <;>
          by_cases hzip : env.zipOk = true <;>
            simp_all [progressInts, finalStatusWrite, nonDecreasing, failUpdates,
              successUpdates, hp]

/-- C7 counterexample: a claimed task whose conversion fails after the
30-percent milestone has lifetime progress sequence 0, 30, 0 — the
failure handler persists progress 0 — which is not non-decreasing. -/
theorem progress_monotone_counterexample :
    lifetimeProgress 0 [] rowClaimedHashed envConvertFail = [0, 30, 0] ∧
    nonDecreasing (lifetimeProgress 0 [] rowClaimedHashed envConvertFail) = false := by
  constructor <;> decide

/-- C7 (amended): for a task created with progress at most 30 (the
enqueue paths use 0), the persisted progress sequence is monotonically
non-decreasing on every run whose final persisted status is COMPLETED
(the cache-hit and success paths); a non-monotone sequence can arise only
on a failure path, whose final persisted status is FAILED and whose last
persisted progress value is 0. -/
theorem progress_trace_spec (p0 : Int) (store : Store) (task : TaskRow)
    (env : WorkerEnv) (hp : p0 ≤ 30) :
    (finalStatusWrite (processTaskUpdates store task env) =
        some (DBValue.text "completed") →
      nonDecreasing (lifetimeProgress p0 store task env) = true) ∧
    (nonDecreasing (lifetimeProgress p0 store task env) = false →
      finalStatusWrite (processTaskUpdates store task env) =
        some (DBValue.text "failed") ∧
      (progressInts (processTaskUpdates store task env)).getLast? = some 0) := by
  unfold lifetimeProgress processTaskUpdates
  cases hcl : workerCacheLookup store task with
  | none => exact progress_trace_rest p0 task env hp
  | some cached =>
    by_cases hart : env.cachedArtifactExists = true
    · simp only [hart, if_true]
      constructor
      · intro _
        simp [progressInts, nonDecreasing, cacheHitUpdates]
        omega
      · intro hm
        exfalso
        simp [progressInts, nonDecreasing, cacheHitUpdates] at hm
        omega
    · have hart' : env.cachedArtifactExists = false := by simpa using hart
      simp only [hart', Bool.false_eq_true, if_false]
      exact progress_trace_rest p0 task env hp

/-- C7 witness: a clean conversion run on a claimed task created at
progress 0 persists the non-decreasing sequence 0, 30, 70, 100. -/
theorem progress_trace_spec_witness :
    lifetimeProgress 0 [] rowClaimedHashed envSuccess = [0, 30, 70, 100] ∧
    nonDecreasing (lifetimeProgress 0 [] rowClaimedHashed envSuccess) = true := by
  have h := progress_trace_spec 0 [] rowClaimedHashed envSuccess (by decide)
  exact ⟨by decide, h.1 (by decide)⟩

theorem get_task_by_hash_mem (store : Store) (h : String) (c : TaskRow)
    (hc : get_task_by_hash store h = some c) :
    c ∈ store ∧ c.file_hash = DBValue.text h ∧ isCompleted c = true := by
  unfold get_task_by_hash at hc
  have hmem : c ∈ store.filter
      (fun t => decide (t.file_hash = DBValue.text h) && isCompleted t) :=
    List.argmin_mem (Option.mem_def.mpr hc)
  rcases List.mem_filter.mp hmem with ⟨h1, h2⟩
  rw [Bool.and_eq_true] at h2
  exact ⟨h1, of_decide_eq_true h2.1, h2.2⟩

theorem workerCacheLookup_inv (store : Store) (t c : TaskRow)
    (hc : workerCacheLookup store t = some c) :
    ∃ h, truthyText t.file_hash = some h ∧ get_task_by_hash store h = some c ∧
      (truthyText c.result_path).isSome = true := by
  unfold workerCacheLookup at hc
  cases hh : truthyText t.file_hash with
  | none =>
    simp only [hh] at hc
    exact Option.noConfusion hc
  | some h =>
    simp only [hh] at hc
    cases hg : get_task_by_hash store h with
    | none =>
      simp only [hg] at hc
      exact Option.noConfusion hc
    | some c' =>
      simp only [hg] at hc
      by_cases hrp : (truthyText c'.result_path).isSome = true
      · rw [if_pos hrp] at hc
        injection hc with hcc
        subst hcc
        exact ⟨h, rfl, hg, hrp⟩
      · rw [if_neg hrp] at hc
        exact absurd hc (by simp)

/-- C3 counterexample: with a COMPLETED task of hash h0 and a surviving
artifact already in the store, enqueueing the same bytes again still
creates a second task row and returns the fresh id, not the cached task's
id — even though `GetByHash` would have produced the hit. -/
theorem enqueue_cache_counterexample :
    get_task_by_hash [rowCompletedCached] "h0" = some rowCompletedCached ∧
    (convert_document_enqueue [rowCompletedCached] "t-second" "a.docx" 7).1 =
      "t-second" ∧
    (convert_document_enqueue [rowCompletedCached] "t-second" "a.docx" 7).1 ≠
      rowCompletedCached.id ∧
    (convert_document_enqueue [rowCompletedCached] "t-second" "a.docx" 7).2.length = 2 := by
  refine ⟨by decide, rfl, by decide, by decide⟩

/-- C3 (amended): the enqueue route never consults the content-hash
cache: every enqueue appends one fresh `pending` row with no `file_hash`
and returns the fresh id, even when a byte-identical completed task
exists.  Content-hash deduplication happens only inside the worker: after
claiming a task whose hash yields a `GetByHash` hit (a completed row of
the same hash with a truthy `result_path`) whose artifact still exists,
the worker persists the claimed task as COMPLETED with the cached row's
`result_path` and `s3_url`, progress 100 and the cached-result message,
instead of converting. -/
theorem enqueue_no_cache_spec (store : Store) (fresh_id fname : String) (now : Int)
    (task cached : TaskRow) (env : WorkerEnv)
    (hc : workerCacheLookup store task = some cached)
    (hart : env.cachedArtifactExists = true) :
    (convert_document_enqueue store fresh_id fname now).1 = fresh_id ∧
    (convert_document_enqueue store fresh_id fname now).2 =
      store ++ [newTaskRow fresh_id fname (DBValue.text "pending")
        (DBValue.text "Task queued for processing") (DBValue.int 0) DBValue.null now] ∧
    cached ∈ store ∧ isCompleted cached = true ∧
    (∀ t ∈ store, t.id = task.id →
      applyTaskUpdates t (cacheHitUpdates cached) now ∈ processTask store task env now) ∧
    (∀ t, applyTaskUpdates t (cacheHitUpdates cached) now =
      { t with status := DBValue.text "completed"
               result_path := cached.result_path
               s3_url := cached.s3_url
               progress := DBValue.int 100
               message := DBValue.text "Использован кешированный результат"
               updated_at := now }) := by
  rcases workerCacheLookup_inv store task cached hc with ⟨h, _, hg, _⟩
  rcases get_task_by_hash_mem store h cached hg with ⟨hmem, _, hcomp⟩
  have hupd : processTaskUpdates store task env = [cacheHitUpdates cached] := by
    unfold processTaskUpdates
    simp only [hc]
    rw [if_pos hart]
  refine ⟨rfl, rfl, hmem, hcomp, ?_, fun t => rfl⟩
  intro t ht hid
  unfold processTask
  rw [hupd]
  simp only [List.foldl_cons, List.foldl_nil, update_task]
  have := List.mem_map_of_mem
    (fun u => if u.id = task.id then applyTaskUpdates u (cacheHitUpdates cached) now else u) ht
  simpa [hid] using this

/-- C3 witness: with a completed cached row and a claimed row of the same
hash in the store, the enqueue route still returns the fresh id, while
the worker run on the claimed task persists the cached artifact. -/
theorem enqueue_no_cache_spec_witness :
    (convert_document_enqueue [rowCompletedCached, rowClaimedHashed] "t9" "x.docx" 40).1 =
      "t9" ∧
    applyTaskUpdates rowClaimedHashed (cacheHitUpdates rowCompletedCached) 40 ∈
      processTask [rowCompletedCached, rowClaimedHashed] rowClaimedHashed envCacheHit 40 := by
  have h := enqueue_no_cache_spec [rowCompletedCached, rowClaimedHashed] "t9" "x.docx" 40
    rowClaimedHashed rowCompletedCached envCacheHit (by decide) rfl
  exact ⟨h.1, h.2.2.2.2.1 rowClaimedHashed (by decide) rfl⟩

/-- C1: on any store with unique ids (the `id` column is the PRIMARY
KEY), `ClaimNext(worker_id)` returns `None` exactly when no task is
QUEUED; otherwise it returns a QUEUED task of minimal `created_at`, which
both in the returned record and in the store now has status PROCESSING,
the caller's `worker_id` and `processing_started` equal to the claim
time, while every task with a different id is still present unchanged and
the store's size is unchanged. -/
theorem get_next_queued_task_spec (store : Store) (worker : String) (now : Int)
    (hids : (store.map TaskRow.id).Nodup) :
    ((get_next_queued_task store worker now).1 = none ↔
      ∀ t ∈ store, isQueued t = false) ∧
    (∀ sel, (get_next_queued_task store worker now).1 = some sel →
      sel.status = DBValue.text "processing" ∧
      sel.worker_id = DBValue.text worker ∧
      sel.processing_started = DBValue.int now ∧
      sel ∈ (get_next_queued_task store worker now).2 ∧
      (get_next_queued_task store worker now).2.length = store.length ∧
      ∃ orig, orig ∈ store ∧ isQueued orig = true ∧ sel = claimRow orig worker now ∧
        (∀ u ∈ store, u.id = orig.id → u = orig) ∧
        (∀ u ∈ store, isQueued u = true → orig.created_at ≤ u.created_at) ∧
        (∀ u ∈ store, u.id ≠ orig.id →
          u ∈ (get_next_queued_task store worker now).2)) := by
  have huniq : ∀ x ∈ store, ∀ y ∈ store, x.id = y.id → x = y :=
    List.inj_on_of_nodup_map hids
  unfold get_next_queued_task
  cases hf : findNextQueued store with
  | none =>
    refine ⟨⟨fun _ => ?_, fun _ => rfl⟩, fun sel hsel => absurd hsel (by simp)⟩
    intro t ht
    have hnil : store.filter isQueued = [] := List.argmin_eq_none.mp hf
    have := List.filter_eq_nil_iff.mp hnil t ht
    simpa using this
  | some sel0 =>
    have hm : sel0 ∈ store.filter isQueued := List.argmin_mem (Option.mem_def.mpr hf)
    rcases List.mem_filter.mp hm with ⟨hmem, hq⟩
    refine ⟨⟨fun habs => absurd habs (by simp), fun hall => ?_⟩, fun sel hsel => ?_⟩
    · exfalso
      have hnil : store.filter isQueued = [] :=
        List.filter_eq_nil_iff.mpr (fun a ha => by simp [hall a ha])
      rw [findNextQueued, hnil] at hf
      exact absurd hf (by simp [List.argmin_nil])
    · have hsel' : sel = claimRow sel0 worker now := by
        injection hsel with h
        exact h.symm
      subst hsel'
      refine ⟨rfl, rfl, rfl, ?_, by simp, sel0, hmem, hq, rfl,
        fun u hu hid => huniq u hu sel0 hmem hid, ?_, ?_⟩
      · have := List.mem_map_of_mem
          (fun t => if t.id = sel0.id then claimRow t worker now else t) hmem
        simpa using this
      · intro u hu huq
        exact List.le_of_mem_argmin (List.mem_filter.mpr ⟨hu, huq⟩)
          (Option.mem_def.mpr hf)
      · intro u hu hne
        have := List.mem_map_of_mem
          (fun t => if t.id = sel0.id then claimRow t worker now else t) hu
        simpa [hne] using this

/-- C1 witness: on a two-row store the older queued task t1 is claimed by
w1 at time 10, the claimed record is in the store, and the younger task
t2 is still present unchanged. -/
theorem get_next_queued_task_spec_witness :
    (get_next_queued_task [rowQueuedLater, rowQueued] "w1" 10).1 =
      some (claimRow rowQueued "w1" 10) ∧
    claimRow rowQueued "w1" 10 ∈
      (get_next_queued_task [rowQueuedLater, rowQueued] "w1" 10).2 ∧
    rowQueuedLater ∈ (get_next_queued_task [rowQueuedLater, rowQueued] "w1" 10).2 := by
  have h := get_next_queued_task_spec [rowQueuedLater, rowQueued] "w1" 10 (by decide)
  have h1 : (get_next_queued_task [rowQueuedLater, rowQueued] "w1" 10).1 =
      some (claimRow rowQueued "w1" 10) := by decide
  rcases h.2 (claimRow rowQueued "w1" 10) h1 with
    ⟨_, _, _, hmem, _, orig, horig, _, hsel, _, _, hframe⟩
  have hid : orig.id = "t1" := by
    have := congrArg TaskRow.id hsel
    simpa [claimRow, rowQueued, newTaskRow] using this.symm
  refine ⟨h1, hmem, hframe rowQueuedLater (by decide) ?_⟩
  rw [hid]
  decide

/-- C10: `Update(id, fields)` on an id matching no task is a silent no-op
on the store — the generated UPDATE matches no row — and no NotFound
error exists on this path. -/
theorem update_task_missing_id_noop (store : Store) (task_id : String)
    (updates : List (String × DBValue)) (now : Int)
    (h : ∀ t ∈ store, t.id ≠ task_id) :
    update_task store task_id updates now = store := by
  unfold update_task
  have : store.map (fun t => if t.id = task_id then applyTaskUpdates t updates now else t) =
      store.map id := by
    apply List.map_congr_left
    intro t ht
    simp [h t ht]
  simpa using this

/-- C10 witness: updating an absent id leaves a concrete store intact. -/
theorem update_task_missing_id_noop_witness :
    update_task [rowQueued] "absent" [("status", DBValue.text "failed")] 9 = [rowQueued] :=
  update_task_missing_id_noop [rowQueued] "absent" [("status", DBValue.text "failed")] 9
    (by decide)

end DocQueue
